import Mathlib

/-!
Shallow embedding of the chat-server backend (Flask/SQLAlchemy sources:
`auth.py`, `config.py`, `models.py`, `routes/auth_routes.py`,
`routes/room_routes.py`, `routes/message_routes.py`).

Modelling conventions:
* The relational store is a record of lists of rows; SQLAlchemy queries
  become list operations (`filter_by(...).first()` is `List.find?`,
  `.count()` is `List.length` of a `List.filter`, `db.session.add` is a
  list append, `db.session.delete` of a fetched row erases the first
  matching row).
* Timestamps are integers (`datetime.utcnow()` becomes an explicit
  `now : Int` parameter supplied per request).
* The external credential-hashing collaborator (`bcrypt`) is abstracted
  by storing the plaintext as the opaque hash, so `generate_password_hash`
  is the identity and `check_password_hash` is string equality — the only
  properties of the collaborator the handlers rely on.
* `generate_uuid` primary keys that no handler logic ever reads back
  (the surrogate `id` of `RoomMember`, `MessageReaction`, `LoginAttempt`)
  are omitted; ids that the logic does consult (`User.id`, `Room.id`,
  `Message.id`) are `Nat` values, and freshly generated ids are explicit
  parameters of the operations.
* Each handler returns a result constructor (mirroring the distinct
  HTTP responses of the route) together with the post-state; an early
  `return jsonify(error)` leaves the store unchanged, and
  `db.session.rollback()` on exception is reflected by failures always
  returning the pre-state.
-/

namespace ChatServer

/-- config.py: `MAX_LOGIN_ATTEMPTS = 5`. -/
def MAX_LOGIN_ATTEMPTS : Nat := 5

/-- config.py: `LOGIN_BLOCK_TIME = 900`. -/
def LOGIN_BLOCK_TIME : Int := 900

/-- models.py `User` row (columns read by the modelled handlers). -/
structure UserR where
  id : Nat
  username : String
  email : String
  passwordHash : String
  displayName : String
  isOnline : Bool
  lastSeen : Int
  deriving Repr, DecidableEq

/-- models.py `Room` row. `password_hash` is nullable, hence `Option`. -/
structure RoomR where
  id : Nat
  name : String
  description : String
  isPrivate : Bool
  passwordHash : Option String
  createdBy : Nat
  maxMembers : Nat
  deriving Repr, DecidableEq

/-- models.py `RoomMember` row (role is one of "member", "admin", "owner"). -/
structure RoomMemberR where
  userId : Nat
  roomId : Nat
  role : String
  joinedAt : Int
  deriving Repr, DecidableEq

/-- models.py `Message` row. -/
structure MessageR where
  id : Nat
  roomId : Nat
  userId : Nat
  content : String
  messageType : String
  fileUrl : String
  replyTo : Option Nat
  isEdited : Bool
  createdAt : Int
  deriving Repr, DecidableEq

/-- models.py `MessageReaction` row. -/
structure ReactionR where
  messageId : Nat
  userId : Nat
  emoji : String
  deriving Repr, DecidableEq

/-- models.py `LoginAttempt` row. -/
structure LoginAttemptR where
  ipAddress : String
  username : String
  attemptedAt : Int
  successful : Bool
  deriving Repr, DecidableEq

/-- The relational store: one list of rows per table. -/
structure Store where
  users : List UserR
  rooms : List RoomR
  members : List RoomMemberR
  messages : List MessageR
  reactions : List ReactionR
  attempts : List LoginAttemptR
  deriving Repr, DecidableEq

/-- Python `str.strip()`: drops leading and trailing whitespace. Defined by
structural recursion over the character list so that concrete instances
evaluate inside the kernel. -/
def pystrip (s : String) : String :=
  ⟨((s.data.dropWhile Char.isWhitespace).reverse.dropWhile Char.isWhitespace).reverse⟩

/-- auth.py `check_login_attempts`: counts failed attempts of the exact
(ip, username) pair whose `attempted_at` is at least `now - LOGIN_BLOCK_TIME`,
and allows the login while that count is below `MAX_LOGIN_ATTEMPTS`. -/
def check_login_attempts (now : Int) (s : Store) (ip username : String) : Bool :=
  let timeThreshold := now - LOGIN_BLOCK_TIME
  let recentAttempts :=
    (s.attempts.filter (fun a =>
      a.ipAddress == ip && a.username == username &&
      decide (timeThreshold ≤ a.attemptedAt) && a.successful == false)).length
  recentAttempts < MAX_LOGIN_ATTEMPTS

/-- auth.py `record_login_attempt`: appends one audit row and commits. -/
def record_login_attempt (now : Int) (s : Store) (ip username : String)
    (successful : Bool) : Store :=
  { s with attempts := s.attempts ++ [⟨ip, username, now, successful⟩] }

/-- Outcome of auth_routes.py `login` (one constructor per distinct response). -/
inductive LoginResult where
  | badRequest
  | tooManyAttempts
  | invalidCredentials
  | success (userId : Nat)
  deriving Repr, DecidableEq

/-- auth_routes.py `login`: strips the username, rejects empty fields,
checks the throttle, finds the user by username OR email, verifies the
password, flips the online flag on success, and records exactly one
attempt row for every actual credential check. -/
def login (now : Int) (s : Store) (ip username password : String) :
    LoginResult × Store :=
  let username := pystrip username
  if username = "" || password = "" then (.badRequest, s)
  else if !check_login_attempts now s ip username then (.tooManyAttempts, s)
  else
    match s.users.find? (fun u => u.username == username || u.email == username) with
    | some u =>
      if u.passwordHash == password then
        let s := { s with users := s.users.map (fun x =>
          if x.id == u.id then { x with isOnline := true, lastSeen := now } else x) }
        (.success u.id, record_login_attempt now s ip username true)
      else
        (.invalidCredentials, record_login_attempt now s ip username false)
    | none => (.invalidCredentials, record_login_attempt now s ip username false)

/-- The condition under which auth_routes.py lines 86-90 accept the supplied
credentials: some stored user matches the identifier by username or email
and the password verifies against that first match. -/
def credentials_ok (s : Store) (username password : String) : Bool :=
  match s.users.find? (fun u => u.username == username || u.email == username) with
  | some u => u.passwordHash == password
  | none => false

/-- The throttle-window predicate of auth.py lines 36-41: same ip, same
username, attempted within the trailing `LOGIN_BLOCK_TIME` seconds, failed. -/
def throttled_attempt (now : Int) (ip username : String) (a : LoginAttemptR) : Bool :=
  a.ipAddress == ip && a.username == username &&
    decide (now - LOGIN_BLOCK_TIME ≤ a.attemptedAt) && a.successful == false

/-- C3: `check_login_attempts` blocks exactly when at least 5 failed attempts
for the exact (ip, username) pair lie within the trailing 900 seconds (a
sliding lookback, not a fixed bucket); the next login of a blocked pair returns the
throttle error for every supplied password, correct ones included, without
touching the store; and once every failed attempt of the pair is strictly
older than 900 seconds the pair is allowed again. -/
theorem check_login_attempts_sliding_window (now : Int) (s : Store) (ip u : String) :
    (check_login_attempts now s ip u = false ↔
      MAX_LOGIN_ATTEMPTS ≤ s.attempts.countP (throttled_attempt now ip u))
    ∧ (∀ pwd : String, pystrip u = u → u ≠ "" → pwd ≠ "" →
        check_login_attempts now s ip u = false →
        (login now s ip u pwd).1 = .tooManyAttempts ∧ (login now s ip u pwd).2 = s)
    ∧ ((∀ a ∈ s.attempts, a.ipAddress = ip → a.username = u → a.successful = false →
          a.attemptedAt < now - LOGIN_BLOCK_TIME) →
        check_login_attempts now s ip u = true) := by
  refine ⟨?_, ?_, ?_⟩
  · unfold check_login_attempts throttled_attempt
    simp [List.countP_eq_length_filter, Nat.not_lt]
  · intro pwd htrim hu hp hblocked
    unfold login
    rw [htrim]
    simp [hu, hp, hblocked]
  · intro hall
    have hnil : s.attempts.filter (fun a =>
        a.ipAddress == ip && a.username == u &&
        decide (now - LOGIN_BLOCK_TIME ≤ a.attemptedAt) && a.successful == false) = [] := by
      rw [List.filter_eq_nil_iff]
      intro a ha
      simp only [Bool.and_eq_true, beq_iff_eq, decide_eq_true_eq, Bool.not_eq_true]
      intro hcon
      obtain ⟨⟨⟨hip, hun⟩, htime⟩, hs⟩ := hcon
      exact absurd htime (not_le.mpr (hall a ha hip hun (by simpa using hs)))
    rw [show check_login_attempts now s ip u =
      decide ((s.attempts.filter (fun a =>
        a.ipAddress == ip && a.username == u &&
        decide (now - LOGIN_BLOCK_TIME ≤ a.attemptedAt) && a.successful == false)).length
          < MAX_LOGIN_ATTEMPTS) from rfl, hnil]
    rfl

/-- C3 witness: a concrete store with five failed attempts for the pair
(ip "1.2.3.4", username "alice") at time 100 blocks the pair at time 500
even though the stored password matches the supplied one. -/
def attemptsFiveC3 : List LoginAttemptR :=
  [⟨"1.2.3.4", "alice", 100, false⟩, ⟨"1.2.3.4", "alice", 101, false⟩,
   ⟨"1.2.3.4", "alice", 102, false⟩, ⟨"1.2.3.4", "alice", 103, false⟩,
   ⟨"1.2.3.4", "alice", 104, false⟩]

/-- Concrete store for the throttle witnesses. -/
def storeC3 : Store :=
  { users := [⟨1, "alice", "alice@x.com", "secret1", "Alice", false, 0⟩],
    rooms := [], members := [], messages := [], reactions := [],
    attempts := attemptsFiveC3 }

theorem check_login_attempts_sliding_window_witness :
    (login 500 storeC3 "1.2.3.4" "alice" "secret1").1 = .tooManyAttempts ∧
      (login 500 storeC3 "1.2.3.4" "alice" "secret1").2 = storeC3 :=
  (check_login_attempts_sliding_window 500 storeC3 "1.2.3.4" "alice").2.1
    "secret1" (by decide) (by decide) (by decide) (by decide)

/-- C4: the throttle check runs first — a blocked login returns the
too-many-attempts condition and appends no attempt row; an unblocked login
appends exactly one `LoginAttempt` row, keyed on the supplied ip and
(stripped) username, whose success flag is exactly whether the credentials
verified; and the call succeeds exactly when the credentials verified. -/
theorem login_attempt_recording (now : Int) (s : Store) (ip u pwd : String)
    (htrim : pystrip u = u) (hu : u ≠ "") (hp : pwd ≠ "") :
    (check_login_attempts now s ip u = false →
      (login now s ip u pwd).1 = .tooManyAttempts ∧
      (login now s ip u pwd).2.attempts = s.attempts)
    ∧ (check_login_attempts now s ip u = true →
      (login now s ip u pwd).2.attempts
        = s.attempts ++ [⟨ip, u, now, credentials_ok s u pwd⟩]
      ∧ ((∃ uid, (login now s ip u pwd).1 = .success uid) ↔
          credentials_ok s u pwd = true)) := by
  constructor
  · intro hblk
    unfold login
    rw [htrim]
    simp [hu, hp, hblk]
  · intro hok
    unfold login credentials_ok
    rw [htrim]
    simp only [hu, hp, hok]
    cases hfind : s.users.find? (fun x => x.username == u || x.email == u) with
    | none => simp [record_login_attempt, hfind]
    | some usr =>
      by_cases hpw : usr.passwordHash == pwd
      · simp [record_login_attempt, hfind, hpw]
      · simp [record_login_attempt, hfind, hpw]

/-- Concrete store for the login-recording and identifier witnesses:
one user, no prior attempts. -/
def storeC10 : Store :=
  { users := [⟨1, "alice", "alice@x.com", "secret1", "Alice", false, 0⟩],
    rooms := [], members := [], messages := [], reactions := [],
    attempts := [] }

theorem login_attempt_recording_witness :
    (login 2000 storeC3 "1.2.3.4" "alice" "wrongpw").2.attempts
      = storeC3.attempts ++ [⟨"1.2.3.4", "alice", 2000,
          credentials_ok storeC3 "alice" "wrongpw"⟩] :=
  ((login_attempt_recording 2000 storeC3 "1.2.3.4" "alice" "wrongpw"
      (by decide) (by decide) (by decide)).2 (by decide)).1

/-- C10: the login identifier is matched against both the username and the
email column (the first user whose username OR email equals the supplied
string is used, so authenticating with the email address succeeds); failed
attempts are recorded under the supplied string itself; and an attempt row
recorded under a different string never counts toward the throttle key of
this pair. -/
theorem login_identifier_username_or_email (now : Int) (s : Store)
    (ip u pwd : String) (usr : UserR)
    (htrim : pystrip u = u) (hu : u ≠ "") (hp : pwd ≠ "")
    (hchk : check_login_attempts now s ip u = true)
    (hfind : s.users.find? (fun x => x.username == u || x.email == u) = some usr) :
    (usr.username = u ∨ usr.email = u)
    ∧ (usr.passwordHash = pwd → (login now s ip u pwd).1 = .success usr.id)
    ∧ (usr.passwordHash ≠ pwd →
        (login now s ip u pwd).1 = .invalidCredentials ∧
        (login now s ip u pwd).2.attempts = s.attempts ++ [⟨ip, u, now, false⟩])
    ∧ (∀ u2 t, u2 ≠ u →
        check_login_attempts now
            { s with attempts := s.attempts ++ [⟨ip, u2, t, false⟩] } ip u
          = check_login_attempts now s ip u) := by
  refine ⟨?_, ?_, ?_, ?_⟩
  · have := List.find?_some hfind
    simpa using this
  · intro hpw
    unfold login
    rw [htrim]
    simp [hu, hp, hchk, hfind, hpw]
  · intro hpw
    unfold login
    rw [htrim]
    simp [hu, hp, hchk, hfind, record_login_attempt, hpw]
  · intro u2 t hne
    unfold check_login_attempts
    simp [List.filter_append, hne]

theorem login_identifier_username_or_email_witness :
    (login 50 storeC10 "1.2.3.4" "alice@x.com" "secret1").1 = .success 1 :=
  (login_identifier_username_or_email 50 storeC10 "1.2.3.4" "alice@x.com"
      "secret1" ⟨1, "alice", "alice@x.com", "secret1", "Alice", false, 0⟩
      (by decide) (by decide) (by decide) (by decide) (by decide)).2.1 (by decide)

/-- models.py `Room.set_password`: stores a hash only for a non-empty
(truthy) password, otherwise clears it. -/
def room_set_password (password : String) : Option String :=
  if password ≠ "" then some password else none

/-- models.py `Room.check_password`: always true when no password hash is
set; otherwise verifies the attempt against the stored hash. -/
def RoomR.check_password (room : RoomR) (password : String) : Bool :=
  match room.passwordHash with
  | none => true
  | some h => h == password

/-- Outcome of room_routes.py `create_room`. -/
inductive CreateRoomResult where
  | userNotFound
  | validationError
  | quotaExceeded
  | created (roomId : Nat)
  deriving Repr, DecidableEq

/-- room_routes.py `create_room`: requires a non-empty (stripped) name,
enforces the 50-rooms-per-creator quota counted by `created_by`, then in one
commit persists the room, an `owner` membership for the creator, and a
`system` message announcing creation. `newRoomId` and `newMsgId` are the
freshly generated uuids. -/
def create_room (s : Store) (currentUserId newRoomId newMsgId : Nat) (now : Int)
    (name description : String) (isPrivate : Bool) (password : String) :
    CreateRoomResult × Store :=
  match s.users.find? (fun u => u.id == currentUserId) with
  | none => (.userNotFound, s)
  | some currentUser =>
    let name := pystrip name
    let description := pystrip description
    if name = "" then (.validationError, s)
    else
      let userRoomCount := (s.rooms.filter (fun r => r.createdBy == currentUserId)).length
      if 50 ≤ userRoomCount then (.quotaExceeded, s)
      else
        let room : RoomR :=
          { id := newRoomId, name := name, description := description,
            isPrivate := isPrivate, passwordHash := room_set_password password,
            createdBy := currentUserId, maxMembers := 100 }
        let membership : RoomMemberR :=
          { userId := currentUserId, roomId := newRoomId, role := "owner",
            joinedAt := now }
        let systemMessage : MessageR :=
          { id := newMsgId, roomId := newRoomId, userId := currentUserId,
            content := "Room \u0027" ++ name ++ "\u0027 was created by "
              ++ currentUser.displayName,
            messageType := "system", fileUrl := "", replyTo := none,
            isEdited := false, createdAt := now }
        (.created newRoomId,
          { s with rooms := s.rooms ++ [room],
                   members := s.members ++ [membership],
                   messages := s.messages ++ [systemMessage] })

/-- Outcome of room_routes.py `join_room`. -/
inductive JoinResult where
  | userNotFound
  | roomNotFound
  | alreadyMember
  | invalidPassword
  | roomFull
  | joined
  deriving Repr, DecidableEq

/-- room_routes.py `join_room`: looks up the room, returns `alreadyMember`
untouched if a membership exists, validates the password only for private or
password-protected rooms, enforces the capacity, then in one commit inserts a
`member`-role membership and a `system` join message. -/
def join_room (s : Store) (currentUserId roomId newMsgId : Nat) (now : Int)
    (password : String) : JoinResult × Store :=
  match s.users.find? (fun u => u.id == currentUserId) with
  | none => (.userNotFound, s)
  | some currentUser =>
    match s.rooms.find? (fun r => r.id == roomId) with
    | none => (.roomNotFound, s)
    | some room =>
      match s.members.find? (fun m => m.userId == currentUserId && m.roomId == roomId) with
      | some _ => (.alreadyMember, s)
      | none =>
        if (room.isPrivate || room.passwordHash.isSome)
            && !room.check_password password then
          (.invalidPassword, s)
        else
          let memberCount := (s.members.filter (fun m => m.roomId == roomId)).length
          if room.maxMembers ≤ memberCount then (.roomFull, s)
          else
            let membership : RoomMemberR :=
              { userId := currentUserId, roomId := roomId, role := "member",
                joinedAt := now }
            let systemMessage : MessageR :=
              { id := newMsgId, roomId := roomId, userId := currentUserId,
                content := currentUser.displayName ++ " joined the room",
                messageType := "system", fileUrl := "", replyTo := none,
                isEdited := false, createdAt := now }
            (.joined,
              { s with members := s.members ++ [membership],
                       messages := s.messages ++ [systemMessage] })

/-- Outcome of room_routes.py `leave_room`. -/
inductive LeaveResult where
  | userNotFound
  | notMember
  | left
  deriving Repr, DecidableEq

/-- room_routes.py `leave_room`: requires a membership; if the requester holds
role `owner` and other members exist, promotes the first other member of
the room to `owner` and appends a `system` message naming the new owner;
always appends a `system` "left the room" message; finally deletes the
membership row of the requester — all in one commit. -/
def leave_room (s : Store) (currentUserId roomId ownerMsgId leftMsgId : Nat)
    (now : Int) : LeaveResult × Store :=
  match s.users.find? (fun u => u.id == currentUserId) with
  | none => (.userNotFound, s)
  | some currentUser =>
    match s.members.find? (fun m => m.userId == currentUserId && m.roomId == roomId) with
    | none => (.notMember, s)
    | some membership =>
      let s1 :=
        if membership.role == "owner" then
          let otherMembers := s.members.filter
            (fun m => m.roomId == roomId && m.userId != currentUserId)
          if 0 < otherMembers.length then
            match otherMembers.head? with
            | some newOwner =>
              let ownerName :=
                ((s.users.find? (fun u => u.id == newOwner.userId)).map
                  UserR.displayName).getD ""
              let ownerMsg : MessageR :=
                { id := ownerMsgId, roomId := roomId, userId := currentUserId,
                  content := ownerName ++ " is now the room owner",
                  messageType := "system", fileUrl := "", replyTo := none,
                  isEdited := false, createdAt := now }
              { s with
                members := s.members.map (fun m =>
                  if m.userId == newOwner.userId && m.roomId == roomId then
                    { m with role := "owner" }
                  else m),
                messages := s.messages ++ [ownerMsg] }
            | none => s
          else s
        else s
      let leftMsg : MessageR :=
        { id := leftMsgId, roomId := roomId, userId := currentUserId,
          content := currentUser.displayName ++ " left the room",
          messageType := "system", fileUrl := "", replyTo := none,
          isEdited := false, createdAt := now }
      let s2 := { s1 with messages := s1.messages ++ [leftMsg] }
      let remaining := s2.members.eraseP
        (fun m => m.userId == currentUserId && m.roomId == roomId)
      (.left, { s2 with members := remaining })

/-- C2: when `create_room` succeeds and the generated room id is fresh,
the post-state holds exactly one membership for the new room (it has role
`owner`) and exactly one message for the new room (it has type `system`);
and whenever the call does not succeed the store is completely unchanged
(the three writes commit as one atomic unit or not at all). -/
theorem create_room_atomic (s : Store) (uid rid mid : Nat) (now : Int)
    (name description : String) (isPriv : Bool) (pwd : String)
    (hfm : ∀ m ∈ s.members, m.roomId ≠ rid)
    (hfs : ∀ g ∈ s.messages, g.roomId ≠ rid)
    (res : CreateRoomResult) (s2 : Store)
    (heq : create_room s uid rid mid now name description isPriv pwd = (res, s2)) :
    (res = .created rid →
      s2.members.countP (fun m => m.roomId == rid && m.role == "owner") = 1 ∧
      s2.members.countP (fun m => m.roomId == rid) = 1 ∧
      s2.messages.countP (fun g => g.roomId == rid && g.messageType == "system") = 1 ∧
      s2.messages.countP (fun g => g.roomId == rid) = 1)
    ∧ (res ≠ .created rid → s2 = s) := by
  unfold create_room at heq
  cases hu : s.users.find? (fun u => u.id == uid) with
  | none =>
    rw [hu] at heq
    simp only [Prod.mk.injEq] at heq
    obtain ⟨h1, h2⟩ := heq
    subst h1; subst h2
    exact ⟨fun hc => by simp at hc, fun _ => rfl⟩
  | some cu =>
    rw [hu] at heq
    simp only [Prod.mk.injEq] at heq
    by_cases hname : pystrip name = ""
    · simp only [hname, if_pos rfl, if_true, Prod.mk.injEq] at heq
      obtain ⟨h1, h2⟩ := heq
      subst h1; subst h2
      exact ⟨fun hc => by simp at hc, fun _ => rfl⟩
    · by_cases hquota : 50 ≤ (s.rooms.filter (fun r => r.createdBy == uid)).length
      · simp only [hname, hquota, if_true, if_false, ite_true, ite_false,
          Prod.mk.injEq] at heq
        obtain ⟨h1, h2⟩ := heq
        subst h1; subst h2
        exact ⟨fun hc => by simp at hc, fun _ => rfl⟩
      · simp only [hname, hquota, ite_true, ite_false, if_true, if_false,
          Prod.mk.injEq] at heq
        obtain ⟨h1, h2⟩ := heq
        subst h1; subst h2
        refine ⟨fun _ => ⟨?_, ?_, ?_, ?_⟩, fun hc => absurd rfl hc⟩
        · rw [List.countP_append]
          have h0 : s.members.countP (fun m => m.roomId == rid && m.role == "owner") = 0 :=
            List.countP_eq_zero.mpr (fun m hm => by simp [hfm m hm])
          simp [h0, List.countP_cons]
        · rw [List.countP_append]
          have h0 : s.members.countP (fun m => m.roomId == rid) = 0 :=
            List.countP_eq_zero.mpr (fun m hm => by simp [hfm m hm])
          simp [h0, List.countP_cons]
        · rw [List.countP_append]
          have h0 : s.messages.countP
              (fun g => g.roomId == rid && g.messageType == "system") = 0 :=
            List.countP_eq_zero.mpr (fun g hg => by simp [hfs g hg])
          simp [h0, List.countP_cons]
        · rw [List.countP_append]
          have h0 : s.messages.countP (fun g => g.roomId == rid) = 0 :=
            List.countP_eq_zero.mpr (fun g hg => by simp [hfs g hg])
          simp [h0, List.countP_cons]

theorem create_room_atomic_witness :
    ((create_room storeC10 1 10 100 5 "Lounge" "" false "").2).members.countP
        (fun m => m.roomId == 10 && m.role == "owner") = 1 ∧
      ((create_room storeC10 1 10 100 5 "Lounge" "" false "").2).members.countP
        (fun m => m.roomId == 10) = 1 ∧
      ((create_room storeC10 1 10 100 5 "Lounge" "" false "").2).messages.countP
        (fun g => g.roomId == 10 && g.messageType == "system") = 1 ∧
      ((create_room storeC10 1 10 100 5 "Lounge" "" false "").2).messages.countP
        (fun g => g.roomId == 10) = 1 :=
  (create_room_atomic storeC10 1 10 100 5 "Lounge" "" false ""
      (by decide) (by decide)
      (create_room storeC10 1 10 100 5 "Lounge" "" false "").1
      (create_room storeC10 1 10 100 5 "Lounge" "" false "").2
      (by decide)).1 (by decide)

/-- C5: joining a room in which the requester already holds a membership
returns `alreadyMember` and leaves the store untouched, for every supplied
password — no password validation, no second membership row, no join
message. -/
theorem join_room_idempotent (s : Store) (uid rid mid : Nat) (now : Int)
    (usr : UserR) (room : RoomR) (mem : RoomMemberR)
    (hu : s.users.find? (fun u => u.id == uid) = some usr)
    (hr : s.rooms.find? (fun r => r.id == rid) = some room)
    (hm : s.members.find? (fun m => m.userId == uid && m.roomId == rid) = some mem) :
    ∀ password, join_room s uid rid mid now password = (.alreadyMember, s) := by
  intro password
  unfold join_room
  rw [hu, hr, hm]

/-- Concrete store for the join witnesses: alice owns room 10, bob exists
and is not a member. -/
def storeJoin : Store :=
  { users := [⟨1, "alice", "alice@x.com", "secret1", "Alice", false, 0⟩,
              ⟨2, "bob", "bob@x.com", "secret2", "Bob", false, 0⟩],
    rooms := [⟨10, "Lounge", "", false, none, 1, 100⟩],
    members := [⟨1, 10, "owner", 0⟩],
    messages := [], reactions := [], attempts := [] }

theorem join_room_idempotent_witness :
    join_room storeJoin 1 10 99 7 "whatever" = (.alreadyMember, storeJoin) :=
  join_room_idempotent storeJoin 1 10 99 7 ⟨1, "alice", "alice@x.com",
      "secret1", "Alice", false, 0⟩ ⟨10, "Lounge", "", false, none, 1, 100⟩
      ⟨1, 10, "owner", 0⟩ (by decide) (by decide) (by decide) "whatever"

/-- C8: for a requester who is not yet a member: a room with no stored
password accepts any supplied password; a password mismatch (possible only
for password-protected rooms) fails with the unauthorized outcome and leaves
the store unchanged; a full room fails with the capacity outcome and leaves
the store unchanged; otherwise the call atomically appends one `member`-role
membership and one `system` join message in the same committed state. -/
theorem join_room_gate (s : Store) (uid rid mid : Nat) (now : Int) (pwd : String)
    (usr : UserR) (room : RoomR)
    (hu : s.users.find? (fun u => u.id == uid) = some usr)
    (hr : s.rooms.find? (fun r => r.id == rid) = some room)
    (hm : s.members.find? (fun m => m.userId == uid && m.roomId == rid) = none) :
    (room.passwordHash = none → room.check_password pwd = true)
    ∧ (room.check_password pwd = false →
        join_room s uid rid mid now pwd = (.invalidPassword, s))
    ∧ (room.check_password pwd = true →
        room.maxMembers ≤ (s.members.filter (fun m => m.roomId == rid)).length →
        join_room s uid rid mid now pwd = (.roomFull, s))
    ∧ (room.check_password pwd = true →
        (s.members.filter (fun m => m.roomId == rid)).length < room.maxMembers →
        join_room s uid rid mid now pwd = (.joined,
          { s with
              members := s.members ++ [⟨uid, rid, "member", now⟩],
              messages := s.messages ++ [⟨mid, rid, uid,
                usr.displayName ++ " joined the room", "system", "", none,
                false, now⟩] })) := by
  refine ⟨?_, ?_, ?_, ?_⟩
  · intro hnone
    unfold RoomR.check_password
    rw [hnone]
  · intro hbad
    have hsome : room.passwordHash.isSome = true := by
      unfold RoomR.check_password at hbad
      cases hph : room.passwordHash with
      | none => rw [hph] at hbad; simp at hbad
      | some h => simp
    unfold join_room
    rw [hu, hr, hm]
    simp [hsome, hbad]
  · intro hok hcap
    unfold join_room
    rw [hu, hr, hm]
    simp [hok, hcap, Nat.not_lt.mpr hcap]
  · intro hok hcap
    unfold join_room
    rw [hu, hr, hm]
    simp [hok, Nat.not_le.mpr hcap, Nat.lt_irrefl]

theorem join_room_gate_witness :
    (join_room storeJoin 2 10 99 7 "ignored").1 = .joined := by
  rw [(join_room_gate storeJoin 2 10 99 7 "ignored"
      ⟨2, "bob", "bob@x.com", "secret2", "Bob", false, 0⟩
      ⟨10, "Lounge", "", false, none, 1, 100⟩
      (by decide) (by decide) (by decide)).2.2.2 (by decide) (by decide)]

/-- The role update leave_room applies to the row of the promoted member. -/
def promoteTo (wId rid : Nat) (m : RoomMemberR) : RoomMemberR :=
  if m.userId == wId && m.roomId == rid then { m with role := "owner" } else m

/-- The membership row leave_room deletes: the row of the requester in the room. -/
def isDeparting (uid rid : Nat) (m : RoomMemberR) : Bool :=
  m.userId == uid && m.roomId == rid

/-- An owner-role membership row of the given room. -/
def isRoomOwner (rid : Nat) (m : RoomMemberR) : Bool :=
  m.roomId == rid && m.role == "owner"

/-- Counting a disjunction of pointwise-disjoint predicates adds the counts. -/
theorem countP_or_of_disjoint {α : Type} (l : List α) (p q : α → Bool)
    (h : ∀ x ∈ l, ¬(p x = true ∧ q x = true)) :
    l.countP (fun x => p x || q x) = l.countP p + l.countP q := by
  induction l with
  | nil => simp
  | cons a t ih =>
    simp only [List.countP_cons]
    rw [ih (fun x hx => h x (List.mem_cons_of_mem a hx))]
    by_cases hp : p a = true
    · have hq : q a = false := by
        cases hq : q a
        · rfl
        · exact absurd ⟨hp, hq⟩ (h a (List.mem_cons_self a t))
      simp [hp, hq]
      omega
    · have hp' : p a = false := by simpa using hp
      cases hq : q a
      · simp [hp', hq]
      · simp [hp', hq]
        omega

/-- A list of length at most one has at most one member. -/
theorem eq_of_mem_of_length_le_one {α : Type} {l : List α} {a b : α}
    (ha : a ∈ l) (hb : b ∈ l) (h : l.length ≤ 1) : a = b := by
  cases l with
  | nil => cases ha
  | cons x t =>
    cases t with
    | nil =>
      simp only [List.mem_singleton] at ha hb
      rw [ha, hb]
    | cons y u => simp at h

/-- Under pairwise-distinct keys, at most one element carries a given key. -/
theorem countP_key_le_one {α : Type} {key : α → Nat} {l : List α} (k : Nat)
    (h : l.Pairwise (fun a b => key a ≠ key b)) :
    l.countP (fun x => key x == k) ≤ 1 := by
  induction l with
  | nil => simp
  | cons a t ih =>
    obtain ⟨ha, ht⟩ := List.pairwise_cons.mp h
    rw [List.countP_cons]
    by_cases hk : (key a == k) = true
    · have h0 : t.countP (fun x => key x == k) = 0 :=
        List.countP_eq_zero.mpr (fun x hx => by
          simp only [beq_iff_eq] at hk ⊢
          intro hxk
          exact ha x hx (hk.trans hxk.symm))
      simp [h0, hk]
    · have := ih ht
      rw [if_neg hk]
      omega

/-- C1: if the membership row of the departing user has role `owner`, that
user is the sole owner of the room, the membership rows of the room carry pairwise-distinct user ids (the
`unique_membership` constraint), and at least one other member exists, then
`leave_room` succeeds, exactly one remaining membership row of the room holds
role `owner` afterwards, and the row of the departing user is deleted. -/
theorem leave_room_owner_transfer (s : Store) (uid rid mid1 mid2 : Nat)
    (now : Int) (usr : UserR) (mem : RoomMemberR)
    (hu : s.users.find? (fun u => u.id == uid) = some usr)
    (hmem : s.members.find? (fun m => m.userId == uid && m.roomId == rid) = some mem)
    (howner : mem.role = "owner")
    (hsole : ∀ m ∈ s.members, m.roomId = rid → m.role = "owner" → m.userId = uid)
    (huniq : (s.members.filter (fun m => m.roomId == rid)).Pairwise
      (fun a b => a.userId ≠ b.userId))
    (hother : ∃ m ∈ s.members, m.roomId = rid ∧ m.userId ≠ uid) :
    (leave_room s uid rid mid1 mid2 now).1 = .left
    ∧ (leave_room s uid rid mid1 mid2 now).2.members.countP
        (fun m => m.roomId == rid && m.role == "owner") = 1
    ∧ ∀ m ∈ (leave_room s uid rid mid1 mid2 now).2.members,
        ¬(m.roomId = rid ∧ m.userId = uid) := by
  obtain ⟨m0, hm0l, hm0r, hm0u⟩ := hother
  have hm0f : m0 ∈ s.members.filter (fun m => m.roomId == rid && m.userId != uid) := by
    simp [List.mem_filter, hm0l, hm0r, hm0u]
  obtain ⟨w, hw⟩ : ∃ w,
      (s.members.filter (fun m => m.roomId == rid && m.userId != uid)).head? = some w := by
    cases hh : (s.members.filter (fun m => m.roomId == rid && m.userId != uid)).head? with
    | none =>
      rw [List.head?_eq_none_iff] at hh
      rw [hh] at hm0f
      cases hm0f
    | some w => exact ⟨w, rfl⟩
  have hwf : w ∈ s.members.filter (fun m => m.roomId == rid && m.userId != uid) := by
    cases hl : s.members.filter (fun m => m.roomId == rid && m.userId != uid) with
    | nil => rw [hl] at hw; cases hw
    | cons a t =>
      rw [hl] at hw
      simp only [List.head?_cons, Option.some.injEq] at hw
      rw [← hw]
      exact List.mem_cons_self a t
  have hwl : w ∈ s.members := (List.mem_filter.mp hwf).1
  have hwp := (List.mem_filter.mp hwf).2
  simp only [Bool.and_eq_true, beq_iff_eq, bne_iff_ne] at hwp
  obtain ⟨hwr, hwu⟩ := hwp
  have hlen : 0 < (s.members.filter (fun m => m.roomId == rid && m.userId != uid)).length :=
    List.length_pos.mpr (List.ne_nil_of_mem hm0f)
  -- facts about the departing row
  have hmemmem : mem ∈ s.members := List.mem_of_find?_eq_some hmem
  have hmemp := List.find?_some hmem
  simp only [Bool.and_eq_true, beq_iff_eq] at hmemp
  obtain ⟨hmemu, hmemr⟩ := hmemp
  -- shape of the resulting member table
  have hres : leave_room s uid rid mid1 mid2 now
      = (.left,
        { users := s.users, rooms := s.rooms,
          members := (s.members.map (promoteTo w.userId rid)).eraseP (isDeparting uid rid),
          messages := (s.messages
            ++ [⟨mid1, rid, uid,
                  (((s.users.find? (fun u => u.id == w.userId)).map
                    UserR.displayName).getD "") ++ " is now the room owner",
                  "system", "", none, false, now⟩])
            ++ [⟨mid2, rid, uid, usr.displayName ++ " left the room",
                  "system", "", none, false, now⟩],
          reactions := s.reactions, attempts := s.attempts }) := by
    unfold leave_room
    rw [hu, hmem]
    dsimp only
    rw [howner]
    simp only [beq_self_eq_true, if_true, if_pos hlen, hw]
    rfl
  have hmembers : (leave_room s uid rid mid1 mid2 now).2.members
      = (s.members.map (promoteTo w.userId rid)).eraseP (isDeparting uid rid) := by
    rw [hres]
  -- the promotion preserves the identifying columns of every row
  have hpres : ∀ y : RoomMemberR,
      (promoteTo w.userId rid y).userId = y.userId ∧
      (promoteTo w.userId rid y).roomId = y.roomId := by
    intro y
    unfold promoteTo
    by_cases h : (y.userId == w.userId && y.roomId == rid) = true <;> simp [h]
  -- at most one row of the room belongs to any single user
  have hkey : ∀ k : Nat,
      s.members.countP (fun m => m.userId == k && m.roomId == rid) ≤ 1 := by
    intro k
    have h1 : (s.members.filter (fun m => m.roomId == rid)).countP
        (fun m => m.userId == k) = s.members.countP
          (fun m => m.userId == k && m.roomId == rid) := by
      rw [List.countP_filter]
    rw [← h1]
    exact @countP_key_le_one RoomMemberR (fun m => m.userId) _ k huniq
  have hcount_p_le : s.members.countP (isDeparting uid rid) ≤ 1 := hkey uid
  -- exactly one row of the room belongs to the promoted member
  have hw_count : s.members.countP
      (fun m => m.roomId == rid && m.userId == w.userId) = 1 := by
    have hswap : s.members.countP (fun m => m.roomId == rid && m.userId == w.userId)
        = s.members.countP (fun m => m.userId == w.userId && m.roomId == rid) :=
      List.countP_congr (fun x _ => by rw [Bool.and_comm])
    have hge : 0 < s.members.countP
        (fun m => m.roomId == rid && m.userId == w.userId) :=
      List.countP_pos.mpr ⟨w, hwl, by simp [hwr]⟩
    have hle := hswap ▸ hkey w.userId
    omega
  -- exactly one owner row of the room exists beforehand (the departing one)
  have howner_count : s.members.countP
      (fun m => m.roomId == rid && m.role == "owner") = 1 := by
    have hge : 0 < s.members.countP
        (fun m => m.roomId == rid && m.role == "owner") :=
      List.countP_pos.mpr ⟨mem, hmemmem, by simp [hmemr, howner]⟩
    have hle : s.members.countP (fun m => m.roomId == rid && m.role == "owner")
        ≤ s.members.countP (isDeparting uid rid) := by
      apply List.countP_mono_left
      intro x hx hq
      simp only [Bool.and_eq_true, beq_iff_eq] at hq
      have := hsole x hx hq.1 hq.2
      simp [isDeparting, this, hq.1]
    omega
  -- after the promotion exactly two owner rows of the room exist
  have hmap_q : (s.members.map (promoteTo w.userId rid)).countP (isRoomOwner rid) = 2 := by
    rw [List.countP_map]
    have hpoint : ∀ x ∈ s.members,
        (isRoomOwner rid ∘ promoteTo w.userId rid) x = true ↔
        ((x.roomId == rid) && ((x.userId == w.userId) || (x.role == "owner"))) = true := by
      intro x _
      by_cases h1 : (x.userId == w.userId) = true <;>
        by_cases h2 : (x.roomId == rid) = true <;>
          simp [isRoomOwner, promoteTo, Function.comp, h1, h2]
    rw [List.countP_congr hpoint]
    have hdistrib : (fun x : RoomMemberR =>
        (x.roomId == rid) && ((x.userId == w.userId) || (x.role == "owner")))
        = fun x => ((x.roomId == rid) && (x.userId == w.userId))
            || ((x.roomId == rid) && (x.role == "owner")) := by
      funext x
      rw [Bool.and_or_distrib_left]
    rw [hdistrib]
    rw [countP_or_of_disjoint _ _ _ (by
      intro x hx hcon
      obtain ⟨hA, hB⟩ := hcon
      simp only [Bool.and_eq_true, beq_iff_eq] at hA hB
      exact hwu ((hsole x hx hB.1 hB.2) ▸ hA.2.symm))]
    rw [hw_count, howner_count]
  -- the departing row survives the promotion unchanged
  have hpromem : promoteTo w.userId rid mem = mem := by
    unfold promoteTo
    rw [if_neg]
    simp only [Bool.and_eq_true, beq_iff_eq]
    intro hcon
    exact hwu (hmemu ▸ hcon.1.symm)
  have hmemmap : promoteTo w.userId rid mem ∈ s.members.map (promoteTo w.userId rid) :=
    List.mem_map_of_mem _ hmemmem
  have hpmem : isDeparting uid rid (promoteTo w.userId rid mem) = true := by
    rw [hpromem]
    simp [isDeparting, hmemu, hmemr]
  obtain ⟨a, l1, l2, hl1, hpa, hdecomp, herase⟩ := List.exists_of_eraseP hmemmap hpmem
  -- the erased row is the departing row, hence an owner row
  have hamem : a ∈ s.members.map (promoteTo w.userId rid) := by
    rw [hdecomp]
    exact List.mem_append_right _ (List.mem_cons_self _ _)
  obtain ⟨x, hxmem, hxa⟩ := List.mem_map.mp hamem
  have hpa' := hpa
  simp only [isDeparting, Bool.and_eq_true, beq_iff_eq] at hpa'
  have hxu : x.userId = uid := by
    have := (hpres x).1
    rw [hxa] at this
    exact this ▸ hpa'.1
  have hxr : x.roomId = rid := by
    have := (hpres x).2
    rw [hxa] at this
    exact this ▸ hpa'.2
  have hxeqmem : x = mem := by
    have hx1 : x ∈ s.members.filter (isDeparting uid rid) :=
      List.mem_filter.mpr ⟨hxmem, by simp [isDeparting, hxu, hxr]⟩
    have hx2 : mem ∈ s.members.filter (isDeparting uid rid) :=
      List.mem_filter.mpr ⟨hmemmem, by simp [isDeparting, hmemu, hmemr]⟩
    exact eq_of_mem_of_length_le_one hx1 hx2
      (by rw [← List.countP_eq_length_filter]; exact hcount_p_le)
  have hqa : isRoomOwner rid a = true := by
    rw [← hxa, hxeqmem, hpromem]
    simp [isRoomOwner, hmemr, howner]
  -- the map keeps the count of departing rows, so l1 and l2 hold none
  have hmapped_p_le : (s.members.map (promoteTo w.userId rid)).countP
      (isDeparting uid rid) ≤ 1 := by
    rw [List.countP_map]
    have : (s.members.countP (isDeparting uid rid ∘ promoteTo w.userId rid))
        = s.members.countP (isDeparting uid rid) := by
      apply List.countP_congr
      intro y _
      simp [isDeparting, Function.comp, (hpres y).1, (hpres y).2]
    rw [this]
    exact hcount_p_le
  refine ⟨by rw [hres], ?_, ?_⟩
  · -- exactly one remaining owner row
    show (leave_room s uid rid mid1 mid2 now).2.members.countP (isRoomOwner rid) = 1
    rw [hmembers, herase]
    have h2 : (l1 ++ a :: l2).countP (isRoomOwner rid) = 2 := by
      rw [← hdecomp]
      exact hmap_q
    rw [List.countP_append, List.countP_cons] at h2
    rw [List.countP_append]
    simp only [hqa, if_true] at h2
    omega
  · -- the row of the departing user is gone
    intro m hm hcon
    obtain ⟨hmr', hmu'⟩ := hcon
    rw [hmembers, herase] at hm
    have hpm : isDeparting uid rid m = true := by
      simp [isDeparting, hmu', hmr']
    rcases List.mem_append.mp hm with h1 | h2
    · exact (hl1 m h1) hpm
    · have hge2 : 2 ≤ (s.members.map (promoteTo w.userId rid)).countP
          (isDeparting uid rid) := by
        rw [hdecomp, List.countP_append, List.countP_cons]
        have hpos : 0 < l2.countP (isDeparting uid rid) :=
          List.countP_pos.mpr ⟨m, h2, hpm⟩
        simp only [hpa, if_true]
        omega
      omega

/-- Concrete store for the leave witness: alice owns room 10, bob is a
plain member. -/
def storeLeave : Store :=
  { users := [⟨1, "alice", "alice@x.com", "secret1", "Alice", false, 0⟩,
              ⟨2, "bob", "bob@x.com", "secret2", "Bob", false, 0⟩],
    rooms := [⟨10, "Lounge", "", false, none, 1, 100⟩],
    members := [⟨1, 10, "owner", 0⟩, ⟨2, 10, "member", 1⟩],
    messages := [], reactions := [], attempts := [] }

theorem leave_room_owner_transfer_witness :
    (leave_room storeLeave 1 10 200 201 9).1 = .left
    ∧ (leave_room storeLeave 1 10 200 201 9).2.members.countP
        (fun m => m.roomId == 10 && m.role == "owner") = 1
    ∧ ∀ m ∈ (leave_room storeLeave 1 10 200 201 9).2.members,
        ¬(m.roomId = 10 ∧ m.userId = 1) :=
  leave_room_owner_transfer storeLeave 1 10 200 201 9
    ⟨1, "alice", "alice@x.com", "secret1", "Alice", false, 0⟩
    ⟨1, 10, "owner", 0⟩
    (by decide) (by decide) (by decide) (by decide) (by decide)
    ⟨⟨2, 10, "member", 1⟩, by decide, by decide, by decide⟩

/-- Outcome of message_routes.py `get_messages`. The `forbidden` and `ok`
responses are the ones the route text aims for; the handler as written can
only ever produce `internalError` (see `get_messages`). -/
inductive MessagesResult where
  | forbidden
  | ok
  | internalError
  deriving Repr, DecidableEq

/-- message_routes.py `get_messages`: the handler binds
`current_user = get_jwt_identity()`. Per the registered
`user_identity_loader` (auth.py lines 13-15) that call returns the user id
as a plain string — the `user_lookup_loader` is consulted only by the
`current_user` proxy, which this file never uses. Line 17 then dereferences
`current_user.id`, which raises `AttributeError` on a string; the blanket
`except Exception` swallows it and the route answers the generic 500
server-error body. The membership check, the descending sort, the
pagination and the reaction grouping in the remaining handler text are
unreachable, and no write ever occurs, so the store is returned unchanged.
(Contrast room_routes.py, which correctly uses the value of
`get_jwt_identity()` as the id itself.) -/
def get_messages (s : Store) (_currentUserId _roomId : Nat)
    (_page _perPage : Int) : MessagesResult × Store :=
  (.internalError, s)

/-- Outcome of message_routes.py `delete_message`. The `forbidden` and
`deleted` responses are the ones the route text aims for; for an existing
message the handler as written can only produce `internalError`. -/
inductive DeleteResult where
  | notFound
  | forbidden
  | deleted
  | internalError
  deriving Repr, DecidableEq

/-- message_routes.py `delete_message`: looks up the message and answers 404
when it is absent. For an existing message the handler then evaluates
`current_user.id` (line 165) on the plain string returned by
`get_jwt_identity()`, raising `AttributeError`; the blanket
`except Exception` rolls back and answers the generic 500 server-error
body. The `can_delete` authorization, the 403 branch and the
reaction/message deletes are unreachable, so the store is never modified. -/
def delete_message (s : Store) (_currentUserId messageId : Nat) :
    DeleteResult × Store :=
  match s.messages.find? (fun m => m.id == messageId) with
  | none => (.notFound, s)
  | some _ => (.internalError, s)

/-- Outcome of message_routes.py `add_reaction`. The `forbidden`,
`conflict` and `added` responses are the ones the route text aims for; for
an existing message and non-empty emoji the handler as written can only
produce `internalError`. -/
inductive ReactionResult where
  | validationError
  | notFound
  | forbidden
  | conflict
  | added
  | internalError
  deriving Repr, DecidableEq

/-- message_routes.py `add_reaction`: rejects a missing or empty (stripped)
emoji with 400 and answers 404 when the message is absent. For an existing
message the handler then evaluates `current_user.id` (line 207) on the
plain string returned by `get_jwt_identity()`, raising `AttributeError`;
the blanket `except Exception` rolls back and answers the generic 500
server-error body. The membership check (403), the duplicate check (409)
and the insert are unreachable, so the store is never modified. -/
def add_reaction (s : Store) (_currentUserId messageId : Nat) (emoji : String) :
    ReactionResult × Store :=
  let emoji := pystrip emoji
  if emoji = "" then (.validationError, s)
  else
    match s.messages.find? (fun m => m.id == messageId) with
    | none => (.notFound, s)
    | some _ => (.internalError, s)

/-- Concrete store for the message-route failing inputs: alice owns room 10
with two messages, and already reacted "x" to the older one. -/
def storeMsgs : Store :=
  { users := [⟨1, "alice", "alice@x.com", "secret1", "Alice", false, 0⟩],
    rooms := [⟨10, "Lounge", "", false, none, 1, 100⟩],
    members := [⟨1, 10, "owner", 0⟩],
    messages := [⟨100, 10, 1, "hi", "text", "", none, false, 5⟩,
                 ⟨101, 10, 1, "again", "text", "", none, false, 9⟩],
    reactions := [⟨100, 1, "x"⟩],
    attempts := [] }

/-- C6: the claimed behavior — Conflict exactly when the identical
(message, user, emoji) triple already exists, with the reaction set
unchanged after the failure — never happens in the code: for every existing
message and non-empty stripped emoji the handler answers the generic 500
internal error (the `AttributeError` at message_routes.py line 207) and
leaves the store untouched, so Conflict is never produced — in particular
not at an input where the identical triple exists and the requester is a
member of the room. -/
theorem add_reaction_internal_error (s : Store) (uid mid : Nat)
    (emoji : String) (msg : MessageR)
    (hne : pystrip emoji ≠ "")
    (hmsg : s.messages.find? (fun m => m.id == mid) = some msg) :
    add_reaction s uid mid emoji = (.internalError, s) := by
  unfold add_reaction
  rw [if_neg hne, hmsg]

theorem add_reaction_internal_error_witness :
    add_reaction storeMsgs 1 100 "x" = (.internalError, storeMsgs) :=
  add_reaction_internal_error storeMsgs 1 100 "x"
    ⟨100, 10, 1, "hi", "text", "", none, false, 5⟩ (by decide) (by decide)

/-- C7: the claimed authorization semantics never happen in the code: for
every existing message the handler answers the generic 500 internal error
(the `AttributeError` at message_routes.py line 165) with the store
unchanged — the message is never deleted, not even by its author, and
Forbidden is never returned. -/
theorem delete_message_internal_error (s : Store) (uid mid : Nat)
    (msg : MessageR)
    (hmsg : s.messages.find? (fun m => m.id == mid) = some msg) :
    delete_message s uid mid = (.internalError, s) := by
  unfold delete_message
  rw [hmsg]

theorem delete_message_internal_error_witness :
    delete_message storeMsgs 1 100 = (.internalError, storeMsgs) :=
  delete_message_internal_error storeMsgs 1 100
    ⟨100, 10, 1, "hi", "text", "", none, false, 5⟩ (by decide)

/-- C9: the claimed listing semantics never happen in the code: every call,
member or not and for every page and per-page value, answers the generic
500 internal error (the `AttributeError` at message_routes.py line 17) with
the store unchanged — a member never receives the descending enriched
listing and a non-member never receives Forbidden. -/
theorem get_messages_internal_error (s : Store) (uid rid : Nat)
    (page perPage : Int) :
    get_messages s uid rid page perPage = (.internalError, s) := rfl

end ChatServer
